import Mathlib

/-!
Shallow embedding of `src/script.js`, a client-side task list manager that
persists tasks under one fixed localStorage key and re-renders the whole
list after each operation.

Two layers are modelled:

* a JSON layer (`JVal`), for `loadTasks` / `saveTasks` as they act on the
  persisted slot (`localStorage.getItem` / `setItem` with `JSON.parse` /
  `JSON.stringify`);
* a task layer (`Task`), for the repository operations `addTask`,
  `toggleTask`, `deleteTask` and the renderer `renderTasks`.

The persisted slot is modelled as `Option (Option JVal)`: `none` means the
key is absent (or the stored string is falsy), `some none` means a stored
string that `JSON.parse` rejects, and `some (some v)` means a stored string
parsing to the JSON value `v`.  Ambient effects are explicit parameters:
`Date.now()` is `now : Nat`, the random suffix that
`Math.random().toString(36).substring(2)` produces is `rand : String`, and
a quota-exceeded failure of `localStorage.setItem` is `quotaFails : Bool`.
Blocking `alert` notifications are collected as `Notice` values
(`console.error` calls are logs, not user notices, and are not collected).
-/

namespace Script

/-- JSON values, as produced by `JSON.parse`. -/
inductive JVal where
  | jnull : JVal
  | jbool : Bool → JVal
  | jnum : Int → JVal
  | jstr : String → JVal
  | jarr : List JVal → JVal
  | jobj : List (String × JVal) → JVal

/-- The blocking `alert` notifications the script can raise. -/
inductive Notice where
  | emptyInput : Notice
  | overLength : Notice
  | quotaExceeded : Notice
deriving DecidableEq, Repr

/-- `loadTasks` (script.js lines 10-22) at the JSON layer: absent key (or
falsy string) gives `[]`; an unparseable string is caught (the `catch`
only logs) and gives `[]`; a parsed value passes the `Array.isArray` check
or is replaced by `[]`.  The second component records the user notices
raised: none, on every path. -/
def loadTasksR (slot : Option (Option JVal)) : List JVal × List Notice :=
  match slot with
  | none => ([], [])
  | some none => ([], [])
  | some (some v) =>
    match v with
    | JVal.jarr xs => (xs, [])
    | _ => ([], [])

/-- The list returned by `loadTasks`. -/
def loadTasksJ (slot : Option (Option JVal)) : List JVal :=
  (loadTasksR slot).1

/-- A task object as built by `addTask` (script.js lines 68-73). -/
structure Task where
  id : String
  text : String
  completed : Bool
  createdAt : Nat
deriving DecidableEq, Repr

/-- `JSON.stringify`/`JSON.parse` image of one task object: an object with
exactly the fields `id` (string), `text` (string), `completed` (boolean),
`createdAt` (number). -/
def encodeTask (t : Task) : JVal :=
  JVal.jobj [("id", JVal.jstr t.id), ("text", JVal.jstr t.text),
    ("completed", JVal.jbool t.completed), ("createdAt", JVal.jnum t.createdAt)]

/-- A successful `saveTasks` (script.js line 30): the slot now holds the
string `JSON.stringify(tasks)`, which parses back to the array of encoded
task objects. -/
def saveSlot (tasks : List Task) : Option (Option JVal) :=
  some (some (JVal.jarr (tasks.map encodeTask)))

/-- Does a parsed JSON value match the documented persisted layout of one
task: an object with exactly the fields `id` (string), `text` (string),
`completed` (boolean), `createdAt` (number)? -/
def isTaskShaped : JVal → Bool
  | JVal.jobj [("id", JVal.jstr _), ("text", JVal.jstr _),
      ("completed", JVal.jbool _), ("createdAt", JVal.jnum _)] => true
  | _ => false

/-- The whitespace characters `String.prototype.trim` strips (the ASCII
part of the JS WhiteSpace/LineTerminator productions; the claims never
depend on the exotic Unicode space separators). -/
def isJsWhitespace (c : Char) : Bool :=
  c = ' ' || c = '\t' || c = '\n' || c = '\r' || c = '\x0b' || c = '\x0c'

/-- `taskText.trim` of JS: drop leading and trailing whitespace. -/
def jsTrim (s : String) : String :=
  String.mk (((s.data.dropWhile isJsWhitespace).reverse.dropWhile
    isJsWhitespace).reverse)

/-- Digit characters of `Number.prototype.toString(36)`: `0`-`9` then
lowercase `a`-`z`. -/
def digitChar36 (d : Nat) : Char :=
  if d < 10 then Char.ofNat (48 + d) else Char.ofNat (87 + d)

/-- Fuel-driven base-36 digit accumulation (the fuel `n + 1` always
suffices since the argument shrinks strictly each step). -/
def toBase36Go : Nat → Nat → List Char → List Char
  | 0, _, acc => acc
  | fuel + 1, n, acc =>
    if n = 0 then acc else toBase36Go fuel (n / 36) (digitChar36 (n % 36) :: acc)

/-- `n.toString(36)` for a natural number `n`, as used on `Date.now()`. -/
def toBase36 (n : Nat) : String :=
  if n = 0 then "0" else String.mk (toBase36Go (n + 1) n [])

/-- `generateId` (script.js lines 44-46):
`Date.now().toString(36) + Math.random().toString(36).substring(2)`,
with the current time `now` and the random suffix `rand` as explicit
parameters. -/
def generateId (now : Nat) (rand : String) : String :=
  toBase36 now ++ rand

/-- The three aggregate counters `updateStats` displays
(script.js lines 182-191). -/
structure Stats where
  total : Nat
  completed : Nat
  pending : Nat
deriving DecidableEq, Repr

/-- What `renderTasks` (script.js lines 116-139) puts on screen: one row
per task in collection order (or the empty-state placeholder), plus the
three counters. -/
structure RenderView where
  items : List Task
  emptyPlaceholder : Bool
  stats : Stats
deriving DecidableEq, Repr

/-- `renderTasks` re-reads the stored collection and redraws everything:
the rows are the loaded tasks in order, the placeholder shows exactly when
the collection is empty, and `updateStats` recomputes
total / completed / pending = total - completed. -/
def renderView (stored : List Task) : RenderView :=
  { items := stored
    emptyPlaceholder := stored.isEmpty
    stats :=
      { total := stored.length
        completed := (stored.filter (fun t => t.completed)).length
        pending := stored.length - (stored.filter (fun t => t.completed)).length } }

/-- Outcome of one repository operation at the task layer. -/
structure OpResult where
  /-- the persisted collection after the operation -/
  stored : List Task
  /-- did a `localStorage.setItem` write land -/
  saved : Bool
  /-- blocking alerts raised, in order -/
  notices : List Notice
  /-- the view drawn by `renderTasks`, when it ran -/
  rendered : Option RenderView
  /-- was the text input field cleared -/
  inputCleared : Bool
deriving DecidableEq, Repr

/-- `saveTasks` (script.js lines 28-38) at the task layer: on success the
slot now holds `tasks`; a `QuotaExceededError` leaves the slot unchanged
and raises the blocking quota alert (any other failure would only be
logged). -/
def saveTasks (quotaFails : Bool) (stored tasks : List Task) :
    List Task × List Notice :=
  if quotaFails then (stored, [Notice.quotaExceeded]) else (tasks, [])

/-- `addTask` (script.js lines 54-83): trim; alert and return on empty or
over-200-character input; otherwise build the new task, load, push, save,
re-render, and clear the input field. -/
def addTask (taskText : String) (now : Nat) (rand : String)
    (quotaFails : Bool) (stored : List Task) : OpResult :=
  let trimmedText := jsTrim taskText
  if trimmedText = "" then
    { stored := stored, saved := false, notices := [Notice.emptyInput],
      rendered := none, inputCleared := false }
  else if trimmedText.length > 200 then
    { stored := stored, saved := false, notices := [Notice.overLength],
      rendered := none, inputCleared := false }
  else
    let newTask : Task :=
      { id := generateId now rand, text := trimmedText,
        completed := false, createdAt := now }
    let tasks := stored ++ [newTask]
    let saveOut := saveTasks quotaFails stored tasks
    { stored := saveOut.1, saved := !quotaFails, notices := saveOut.2,
      rendered := some (renderView saveOut.1), inputCleared := true }

/-- The in-place `task.completed = !task.completed` on the object found by
`tasks.find(...)`: flip the `completed` field of the first task whose id
matches, leave everything else alone. -/
def toggleFirst (taskId : String) : List Task → List Task
  | [] => []
  | t :: ts =>
    if t.id = taskId then { t with completed := !t.completed } :: ts
    else t :: toggleFirst taskId ts

/-- `toggleTask` (script.js lines 89-98): load, find the first matching
task; if none, do nothing; otherwise flip its `completed`, save and
re-render. -/
def toggleTask (taskId : String) (quotaFails : Bool)
    (stored : List Task) : OpResult :=
  match stored.find? (fun t => t.id = taskId) with
  | none =>
    { stored := stored, saved := false, notices := [],
      rendered := none, inputCleared := false }
  | some _ =>
    let tasks := toggleFirst taskId stored
    let saveOut := saveTasks quotaFails stored tasks
    { stored := saveOut.1, saved := !quotaFails, notices := saveOut.2,
      rendered := some (renderView saveOut.1), inputCleared := false }

/-- `deleteTask` (script.js lines 104-109): load, keep exactly the tasks
whose id differs, save and re-render. -/
def deleteTask (taskId : String) (quotaFails : Bool)
    (stored : List Task) : OpResult :=
  let filteredTasks := stored.filter (fun t => t.id ≠ taskId)
  let saveOut := saveTasks quotaFails stored filteredTasks
  { stored := saveOut.1, saved := !quotaFails, notices := saveOut.2,
    rendered := some (renderView saveOut.1), inputCleared := false }

/-- One user-initiated repository operation, with its ambient inputs. -/
inductive Op where
  | add (taskText : String) (now : Nat) (rand : String) : Op
  | toggle (taskId : String) : Op
  | delete (taskId : String) : Op
deriving DecidableEq, Repr

/-- The stored collection after one operation (saves succeeding). -/
def applyOp (ts : List Task) : Op → List Task
  | Op.add taskText now rand => (addTask taskText now rand false ts).stored
  | Op.toggle taskId => (toggleTask taskId false ts).stored
  | Op.delete taskId => (deleteTask taskId false ts).stored

/-- The stored collection after a sequence of operations. -/
def applyOps (ts : List Task) : List Op → List Task
  | [] => ts
  | o :: os => applyOps (applyOp ts o) os

/-- Does every `add` in the run draw an id that is not already present in
the collection at the moment it is generated? -/
def freshIds (ts : List Task) : List Op → Bool
  | [] => true
  | o :: os =>
    (match o with
     | Op.add _ now rand => !(decide (generateId now rand ∈ ts.map Task.id))
     | Op.toggle _ => true
     | Op.delete _ => true) && freshIds (applyOp ts o) os

/-- C8: `loadTasks` returns the empty collection, raising no user notice,
whenever the storage key is absent, whenever the stored value does not
parse, and whenever it parses to something other than an array. -/
theorem c8_load_treats_bad_slots_as_empty :
    loadTasksR none = ([], []) ∧ loadTasksR (some none) = ([], []) ∧
    ∀ v : JVal, (∀ xs, v ≠ JVal.jarr xs) → loadTasksR (some (some v)) = ([], []) := by
  refine ⟨rfl, rfl, fun v h => ?_⟩
  cases v with
  | jarr ys => exact absurd rfl (h ys)
  | jnull => rfl
  | jbool b => rfl
  | jnum n => rfl
  | jstr s => rfl
  | jobj fields => rfl

/-- Witness for C8 at concrete slots: the absent key, an unparseable
value, and a parsed non-array (a string) all load as empty with no
notice. -/
theorem c8_load_treats_bad_slots_as_empty_witness :
    loadTasksR none = ([], []) ∧ loadTasksR (some none) = ([], []) ∧
    loadTasksR (some (some (JVal.jstr "oops"))) = ([], []) :=
  ⟨c8_load_treats_bad_slots_as_empty.1, c8_load_treats_bad_slots_as_empty.2.1,
    c8_load_treats_bad_slots_as_empty.2.2 (JVal.jstr "oops")
      (fun _ h => JVal.noConfusion h)⟩

/-- C4 counterexample: the persisted value `[1]` parses to an array whose
sole element is not task-shaped, yet `loadTasks` returns it as-is rather
than treating it as absent data — element shapes are never validated. -/
theorem c4_counterexample :
    loadTasksJ (some (some (JVal.jarr [JVal.jnum 1]))) = [JVal.jnum 1] ∧
    isTaskShaped (JVal.jnum 1) = false ∧
    ([JVal.jnum 1] : List JVal) ≠ [] :=
  ⟨rfl, rfl, List.cons_ne_nil _ _⟩

/-- C4 amended: `loadTasks` returns empty exactly when the slot is absent,
unparseable, or parses to a non-array; when the slot parses to an array it
returns the elements unchanged, with no per-element shape validation. -/
theorem c4_load_checks_only_top_level_shape (slot : Option (Option JVal)) :
    (∃ xs, slot = some (some (JVal.jarr xs)) ∧ loadTasksJ slot = xs) ∨
    loadTasksJ slot = [] := by
  match slot with
  | none => exact Or.inr rfl
  | some none => exact Or.inr rfl
  | some (some v) =>
    cases v with
    | jarr xs => exact Or.inl ⟨xs, rfl, rfl⟩
    | jnull => exact Or.inr rfl
    | jbool b => exact Or.inr rfl
    | jnum n => exact Or.inr rfl
    | jstr s => exact Or.inr rfl
    | jobj fields => exact Or.inr rfl

/-- C10: saving a well-formed task array and loading returns exactly the
serialized task objects, and the serialization is injective, so the
loaded array is deep-equal to the saved one field for field and in
order. -/
theorem c10_save_load_roundtrip (tasks : List Task) :
    loadTasksJ (saveSlot tasks) = tasks.map encodeTask ∧
    ∀ a b : Task, encodeTask a = encodeTask b → a = b := by
  refine ⟨rfl, fun a b h => ?_⟩
  simp only [encodeTask, JVal.jobj.injEq, List.cons.injEq, Prod.mk.injEq,
    JVal.jstr.injEq, JVal.jbool.injEq, JVal.jnum.injEq, and_true, true_and,
    Nat.cast_inj] at h
  obtain ⟨h1, h2, h3, h4⟩ := h
  cases a
  cases b
  simp_all

/-- Witness for C10 at a concrete collection and a concrete pair of equal
encodings. -/
theorem c10_save_load_roundtrip_witness :
    loadTasksJ (saveSlot [⟨"a1", "Buy milk", false, 5⟩]) =
      [encodeTask ⟨"a1", "Buy milk", false, 5⟩] ∧
    (⟨"a1", "Buy milk", false, 5⟩ : Task) = ⟨"a1", "Buy milk", false, 5⟩ :=
  ⟨(c10_save_load_roundtrip [⟨"a1", "Buy milk", false, 5⟩]).1,
    (c10_save_load_roundtrip []).2 ⟨"a1", "Buy milk", false, 5⟩
      ⟨"a1", "Buy milk", false, 5⟩ rfl⟩

/-- C1: on valid input (trimmed non-empty, at most 200 characters) and a
successful save, `addTask` appends exactly one task — trimmed text,
`completed = false`, `createdAt` the current time, the freshly generated
id — to the end of the collection, leaves all earlier tasks in place and
in order, and the result is persisted. -/
theorem c1_add_appends_one_task (taskText : String) (now : Nat) (rand : String)
    (stored : List Task) (hne : jsTrim taskText ≠ "")
    (hlen : (jsTrim taskText).length ≤ 200) :
    (addTask taskText now rand false stored).stored =
      stored ++ [{ id := generateId now rand, text := jsTrim taskText,
                   completed := false, createdAt := now }] ∧
    (addTask taskText now rand false stored).saved = true := by
  have hlen2 : ¬ (jsTrim taskText).length > 200 := by omega
  simp [addTask, hne, hlen2, saveTasks]

/-- Witness for C1 at the concrete input `" Buy milk "`. -/
theorem c1_add_appends_one_task_witness :
    (jsTrim " Buy milk " ≠ "" ∧ (jsTrim " Buy milk ").length ≤ 200) ∧
    ((addTask " Buy milk " 7 "xyz" false []).stored =
      [] ++ [{ id := generateId 7 "xyz", text := jsTrim " Buy milk ",
               completed := false, createdAt := 7 }] ∧
     (addTask " Buy milk " 7 "xyz" false []).saved = true) :=
  ⟨⟨by decide, by decide⟩,
    c1_add_appends_one_task " Buy milk " 7 "xyz" [] (by decide) (by decide)⟩

/-- C5: input that trims to empty is rejected with the empty-input notice,
input whose trimmed length exceeds 200 is rejected with the distinct
over-length notice; in both cases the collection is untouched, nothing is
written to storage, nothing is re-rendered, and the input field is not
cleared. -/
theorem c5_add_rejects_invalid_input (taskText : String) (now : Nat)
    (rand : String) (q : Bool) (stored : List Task) :
    (jsTrim taskText = "" →
      addTask taskText now rand q stored =
        { stored := stored, saved := false, notices := [Notice.emptyInput],
          rendered := none, inputCleared := false }) ∧
    ((jsTrim taskText).length > 200 →
      addTask taskText now rand q stored =
        { stored := stored, saved := false, notices := [Notice.overLength],
          rendered := none, inputCleared := false }) ∧
    Notice.emptyInput ≠ Notice.overLength := by
  refine ⟨fun h => by simp [addTask, h], fun h => ?_, by decide⟩
  have hne : jsTrim taskText ≠ "" := by
    intro he
    rw [he] at h
    simp at h
  simp [addTask, hne, h]

set_option maxRecDepth 4000 in
/-- Witness for C5: the blank input `"   "` and a concrete 201-character
input are both rejected, each with its own notice. -/
theorem c5_add_rejects_invalid_input_witness :
    (jsTrim "   " = "" ∧
      addTask "   " 0 "r" false [] =
        { stored := [], saved := false, notices := [Notice.emptyInput],
          rendered := none, inputCleared := false }) ∧
    ((jsTrim (String.mk (List.replicate 201 'a'))).length > 200 ∧
      addTask (String.mk (List.replicate 201 'a')) 0 "r" false [] =
        { stored := [], saved := false, notices := [Notice.overLength],
          rendered := none, inputCleared := false }) :=
  ⟨⟨by decide, (c5_add_rejects_invalid_input "   " 0 "r" false []).1 (by decide)⟩,
    ⟨by decide,
      (c5_add_rejects_invalid_input (String.mk (List.replicate 201 'a'))
        0 "r" false []).2.1 (by decide)⟩⟩

/-- C6: `deleteTask` keeps exactly the tasks whose id differs from the
given one — each survivor unmodified field for field — preserves their
relative order (the result is a sublist of the input), and the result is
persisted. -/
theorem c6_delete_filters_by_id (taskId : String) (stored : List Task) :
    List.Sublist (deleteTask taskId false stored).stored stored ∧
    (∀ t : Task,
      t ∈ (deleteTask taskId false stored).stored ↔ t ∈ stored ∧ t.id ≠ taskId) ∧
    (deleteTask taskId false stored).saved = true := by
  refine ⟨?_, fun t => ?_, rfl⟩
  · simp only [deleteTask, saveTasks, if_neg Bool.false_ne_true]
    exact List.filter_sublist stored
  · simp [deleteTask, saveTasks, List.mem_filter]

/-- Flipping the first matching task touches no id, text or createdAt
field and keeps the collection's order. -/
theorem toggleFirst_frame (taskId : String) (ts : List Task) :
    (toggleFirst taskId ts).map (fun t => (t.id, t.text, t.createdAt)) =
      ts.map (fun t => (t.id, t.text, t.createdAt)) := by
  induction ts with
  | nil => rfl
  | cons t ts ih =>
    by_cases h : t.id = taskId <;> simp [toggleFirst, h, ih]

/-- Flipping the first matching task keeps the list of ids unchanged. -/
theorem toggleFirst_map_id (taskId : String) (ts : List Task) :
    (toggleFirst taskId ts).map Task.id = ts.map Task.id := by
  induction ts with
  | nil => rfl
  | cons t ts ih =>
    by_cases h : t.id = taskId <;> simp [toggleFirst, h, ih]

/-- Flipping the first matching task twice restores the collection. -/
theorem toggleFirst_toggleFirst (taskId : String) (ts : List Task) :
    toggleFirst taskId (toggleFirst taskId ts) = ts := by
  induction ts with
  | nil => rfl
  | cons t ts ih =>
    obtain ⟨tid, ttext, tcomp, tcat⟩ := t
    by_cases h : tid = taskId
    · simp [toggleFirst, h]
    · simp [toggleFirst, h, ih]

/-- When some task carries the id, `find?` succeeds. -/
theorem find?_id_eq_some (taskId : String) (ts : List Task)
    (hmem : taskId ∈ ts.map Task.id) :
    ∃ t, ts.find? (fun t => t.id = taskId) = some t := by
  cases h : ts.find? (fun t => t.id = taskId) with
  | some t => exact ⟨t, rfl⟩
  | none =>
    obtain ⟨t, ht, hid⟩ := List.mem_map.mp hmem
    have := List.find?_eq_none.mp h t ht
    simp [hid] at this

/-- Flipping the first matching task splits the collection as
`pre ++ t :: suf` with `t` the first match: the tasks before and after it
are returned untouched, in place — all their fields included — and only
`t`'s `completed` is flipped. -/
theorem toggleFirst_decomp (taskId : String) (ts : List Task)
    (hmem : taskId ∈ ts.map Task.id) :
    ∃ pre t suf, ts = pre ++ t :: suf ∧ t.id = taskId ∧
      (∀ u ∈ pre, u.id ≠ taskId) ∧
      toggleFirst taskId ts =
        pre ++ { t with completed := !t.completed } :: suf := by
  induction ts with
  | nil => simp at hmem
  | cons u us ih =>
    by_cases h : u.id = taskId
    · exact ⟨[], u, us, rfl, h, by simp, by simp [toggleFirst, h]⟩
    · have hmem2 : taskId ∈ us.map Task.id := by
        rcases List.mem_map.mp hmem with ⟨t, ht, hid⟩
        rcases List.mem_cons.mp ht with rfl | htu
        · exact absurd hid h
        · exact List.mem_map.mpr ⟨t, htu, hid⟩
      obtain ⟨pre, t, suf, hts, htid, hpre, htog⟩ := ih hmem2
      refine ⟨u :: pre, t, suf, by simp [hts], htid, ?_, ?_⟩
      · intro v hv
        rcases List.mem_cons.mp hv with rfl | hvp
        · exact h
        · exact hpre v hvp
      · simp [toggleFirst, h, htog]

/-- With the id present, `toggleTask` stores exactly the collection with
the first match flipped. -/
theorem toggleTask_stored_of_mem (taskId : String) (stored : List Task)
    (hmem : taskId ∈ stored.map Task.id) :
    (toggleTask taskId false stored).stored = toggleFirst taskId stored := by
  obtain ⟨t, ht⟩ := find?_id_eq_some taskId stored hmem
  unfold toggleTask
  rw [ht]
  rfl

/-- C7: with the id present, toggling twice restores the stored collection
exactly, and each of the two applications changes only the first matched
task, and only its `completed` field: the collection splits as
`pre ++ t :: suf` with `t` the first match, and the operation returns
`pre ++ t-with-completed-flipped :: suf`, so every other task — `pre` and
`suf` verbatim, all fields included — and the collection order are
unchanged by each application, and the matched task keeps its id, text
and createdAt. -/
theorem c7_toggle_twice_restores (taskId : String) (stored : List Task)
    (hmem : taskId ∈ stored.map Task.id) :
    (toggleTask taskId false (toggleTask taskId false stored).stored).stored =
      stored ∧
    (∃ pre t suf, stored = pre ++ t :: suf ∧ t.id = taskId ∧
      (∀ u ∈ pre, u.id ≠ taskId) ∧
      (toggleTask taskId false stored).stored =
        pre ++ { t with completed := !t.completed } :: suf) ∧
    (∃ pre t suf,
      (toggleTask taskId false stored).stored = pre ++ t :: suf ∧
      t.id = taskId ∧ (∀ u ∈ pre, u.id ≠ taskId) ∧
      (toggleTask taskId false
          (toggleTask taskId false stored).stored).stored =
        pre ++ { t with completed := !t.completed } :: suf) := by
  have h1 := toggleTask_stored_of_mem taskId stored hmem
  have hmem2 : taskId ∈ ((toggleTask taskId false stored).stored).map Task.id := by
    rw [h1, toggleFirst_map_id]
    exact hmem
  have h2 := toggleTask_stored_of_mem taskId _ hmem2
  refine ⟨?_, ?_, ?_⟩
  · rw [h2, h1, toggleFirst_toggleFirst]
  · obtain ⟨pre, t, suf, ha, hb, hc, hd⟩ := toggleFirst_decomp taskId stored hmem
    exact ⟨pre, t, suf, ha, hb, hc, by rw [h1]; exact hd⟩
  · obtain ⟨pre, t, suf, ha, hb, hc, hd⟩ :=
      toggleFirst_decomp taskId _ hmem2
    exact ⟨pre, t, suf, ha, hb, hc, by rw [h2]; exact hd⟩

/-- Witness for C7 at a concrete one-task collection. -/
theorem c7_toggle_twice_restores_witness :
    "a" ∈ ([⟨"a", "x", false, 0⟩] : List Task).map Task.id ∧
    (toggleTask "a" false
        (toggleTask "a" false [⟨"a", "x", false, 0⟩]).stored).stored =
      [⟨"a", "x", false, 0⟩] ∧
    ∃ pre t suf, ([⟨"a", "x", false, 0⟩] : List Task) = pre ++ t :: suf ∧
      t.id = "a" ∧ (∀ u ∈ pre, u.id ≠ "a") ∧
      (toggleTask "a" false [⟨"a", "x", false, 0⟩]).stored =
        pre ++ { t with completed := !t.completed } :: suf :=
  ⟨by decide,
    (c7_toggle_twice_restores "a" [⟨"a", "x", false, 0⟩] (by decide)).1,
    (c7_toggle_twice_restores "a" [⟨"a", "x", false, 0⟩] (by decide)).2.1⟩

/-- C9: with an id not present in the collection, `toggleTask` does
nothing at all (no write, no notice, no re-render) and `deleteTask`
leaves the stored collection equal to what it was and raises no
notice. -/
theorem c9_lookup_miss_is_noop (taskId : String) (stored : List Task)
    (habsent : taskId ∉ stored.map Task.id) :
    toggleTask taskId false stored =
      { stored := stored, saved := false, notices := [],
        rendered := none, inputCleared := false } ∧
    (deleteTask taskId false stored).stored = stored ∧
    (deleteTask taskId false stored).notices = [] := by
  have hfind : stored.find? (fun t => t.id = taskId) = none := by
    rw [List.find?_eq_none]
    intro t ht
    simp only [decide_eq_true_eq]
    intro hid
    exact habsent (List.mem_map.mpr ⟨t, ht, hid⟩)
  refine ⟨?_, ?_, rfl⟩
  · unfold toggleTask
    rw [hfind]
  · simp [deleteTask, saveTasks]
    intro t ht hid
    exact habsent (List.mem_map.mpr ⟨t, ht, hid⟩)

/-- Witness for C9 at a concrete collection and a missing id. -/
theorem c9_lookup_miss_is_noop_witness :
    "zzz" ∉ ([⟨"a", "x", false, 0⟩] : List Task).map Task.id ∧
    (toggleTask "zzz" false [⟨"a", "x", false, 0⟩] =
      { stored := [⟨"a", "x", false, 0⟩], saved := false, notices := [],
        rendered := none, inputCleared := false } ∧
     (deleteTask "zzz" false [⟨"a", "x", false, 0⟩]).stored =
        [⟨"a", "x", false, 0⟩] ∧
     (deleteTask "zzz" false [⟨"a", "x", false, 0⟩]).notices = []) :=
  ⟨by decide, c9_lookup_miss_is_noop "zzz" [⟨"a", "x", false, 0⟩] (by decide)⟩

/-- C2 counterexample: a quota-failed `addTask "a"` on the empty
collection raises the blocking quota alert and leaves storage empty, but
the re-render re-reads storage and draws the empty placeholder with a
total counter of 0 — the displayed list does not show the new task, so
displayed and persisted state agree rather than diverge. -/
theorem c2_counterexample :
    (addTask "a" 0 "r" true []).notices = [Notice.quotaExceeded] ∧
    (addTask "a" 0 "r" true []).stored = [] ∧
    (addTask "a" 0 "r" true []).rendered = some (renderView []) ∧
    (renderView ([] : List Task)).items = [] ∧
    (renderView ([] : List Task)).emptyPlaceholder = true ∧
    (renderView ([] : List Task)).stats.total = 0 := by
  decide

/-- C2 amended: when the save of a valid add fails for quota, the user
gets the blocking quota notice, storage is unchanged, and the subsequent
re-render re-reads storage, so the displayed list and counters equal the
actually-persisted state (the new task is not shown); the input field is
still cleared. -/
theorem c2_quota_failed_add (taskText : String) (now : Nat) (rand : String)
    (stored : List Task) (hne : jsTrim taskText ≠ "")
    (hlen : (jsTrim taskText).length ≤ 200) :
    (addTask taskText now rand true stored).notices = [Notice.quotaExceeded] ∧
    (addTask taskText now rand true stored).stored = stored ∧
    (addTask taskText now rand true stored).rendered =
      some (renderView stored) ∧
    (addTask taskText now rand true stored).saved = false ∧
    (addTask taskText now rand true stored).inputCleared = true := by
  have hlen2 : ¬ (jsTrim taskText).length > 200 := by omega
  simp [addTask, hne, hlen2, saveTasks]

/-- Witness for the amended C2 at a concrete quota-failed add. -/
theorem c2_quota_failed_add_witness :
    (jsTrim "milk" ≠ "" ∧ (jsTrim "milk").length ≤ 200) ∧
    ((addTask "milk" 3 "q" true [⟨"a", "x", false, 0⟩]).notices =
        [Notice.quotaExceeded] ∧
     (addTask "milk" 3 "q" true [⟨"a", "x", false, 0⟩]).stored =
        [⟨"a", "x", false, 0⟩] ∧
     (addTask "milk" 3 "q" true [⟨"a", "x", false, 0⟩]).rendered =
        some (renderView [⟨"a", "x", false, 0⟩]) ∧
     (addTask "milk" 3 "q" true [⟨"a", "x", false, 0⟩]).saved = false ∧
     (addTask "milk" 3 "q" true [⟨"a", "x", false, 0⟩]).inputCleared = true) :=
  ⟨⟨by decide, by decide⟩,
    c2_quota_failed_add "milk" 3 "q" [⟨"a", "x", false, 0⟩]
      (by decide) (by decide)⟩

/-- C3 counterexample: starting from the empty collection (trivially
unique ids), two adds in the same millisecond with the same random draw
produce two tasks with the same id — the second generated id is already
present when it is created, and the reached collection violates
uniqueness. -/
theorem c3_counterexample :
    (([] : List Task).map Task.id).Nodup ∧
    generateId 1 "r" ∈ (applyOps [] [Op.add "a" 1 "r"]).map Task.id ∧
    ¬ ((applyOps [] [Op.add "a" 1 "r", Op.add "b" 1 "r"]).map Task.id).Nodup := by
  decide

/-- Either validation rejects the add and the collection is untouched, or
the new task is appended at the end. -/
theorem addTask_stored_cases (taskText : String) (now : Nat) (rand : String)
    (stored : List Task) :
    (addTask taskText now rand false stored).stored = stored ∨
    (addTask taskText now rand false stored).stored =
      stored ++ [{ id := generateId now rand, text := jsTrim taskText,
                   completed := false, createdAt := now }] := by
  by_cases h1 : jsTrim taskText = ""
  · left
    simp [addTask, h1]
  · by_cases h2 : (jsTrim taskText).length > 200
    · left
      simp [addTask, h1, h2]
    · right
      simp [addTask, h1, h2, saveTasks]

/-- Toggling never changes the list of ids. -/
theorem toggleTask_map_id (taskId : String) (stored : List Task) :
    ((toggleTask taskId false stored).stored).map Task.id =
      stored.map Task.id := by
  cases h : stored.find? (fun t => t.id = taskId) with
  | none =>
    unfold toggleTask
    rw [h]
  | some t =>
    unfold toggleTask
    rw [h]
    simp [saveTasks, toggleFirst_map_id]

/-- One operation preserves uniqueness of ids, provided an `add` draws an
id not already present. -/
theorem applyOp_nodup (ts : List Task) (o : Op)
    (hnd : (ts.map Task.id).Nodup)
    (hfresh : (match o with
               | Op.add _ now rand =>
                   !(decide (generateId now rand ∈ ts.map Task.id))
               | Op.toggle _ => true
               | Op.delete _ => true) = true) :
    ((applyOp ts o).map Task.id).Nodup := by
  cases o with
  | add taskText now rand =>
    have hni : generateId now rand ∉ ts.map Task.id := by
      simpa using hfresh
    rcases addTask_stored_cases taskText now rand ts with h | h
    · simpa [applyOp, h] using hnd
    · simp only [applyOp, h, List.map_append, List.map_cons, List.map_nil,
        List.nodup_append]
      refine ⟨hnd, List.nodup_singleton _, ?_⟩
      intro x hx hx1
      simp only [List.mem_singleton] at hx1
      subst hx1
      exact hni hx
  | toggle taskId =>
    simpa [applyOp, toggleTask_map_id] using hnd
  | delete taskId =>
    have hsub : List.Sublist ((applyOp ts (Op.delete taskId)).map Task.id)
        (ts.map Task.id) :=
      List.Sublist.map Task.id (List.filter_sublist ts)
    exact List.Nodup.sublist hsub hnd

/-- C3 amended: provided every `add` in the run draws an id not already
present in the collection at the moment of generation, every reachable
state — from any collection with unique ids, after any sequence of add,
toggle and delete — has pairwise distinct ids.  The code itself does not
enforce this freshness: `generateId` repeats when called in the same
millisecond with the same random draw. -/
theorem c3_fresh_ids_keep_ids_unique (ts : List Task) (ops : List Op)
    (hnd : (ts.map Task.id).Nodup) (hfresh : freshIds ts ops = true) :
    ((applyOps ts ops).map Task.id).Nodup := by
  induction ops generalizing ts with
  | nil => exact hnd
  | cons o os ih =>
    simp only [freshIds, Bool.and_eq_true] at hfresh
    exact ih (applyOp ts o) (applyOp_nodup ts o hnd hfresh.1) hfresh.2

/-- Witness for the amended C3: a concrete four-operation run with fresh
ids keeps the ids unique. -/
theorem c3_fresh_ids_keep_ids_unique_witness :
    ((([] : List Task).map Task.id).Nodup ∧
      freshIds [] [Op.add "a" 1 "r", Op.add "b" 2 "s",
        Op.toggle (generateId 1 "r"), Op.delete (generateId 2 "s")] = true) ∧
    ((applyOps [] [Op.add "a" 1 "r", Op.add "b" 2 "s",
        Op.toggle (generateId 1 "r"),
        Op.delete (generateId 2 "s")]).map Task.id).Nodup :=
  ⟨⟨by decide, by decide⟩,
    c3_fresh_ids_keep_ids_unique []
      [Op.add "a" 1 "r", Op.add "b" 2 "s",
        Op.toggle (generateId 1 "r"), Op.delete (generateId 2 "s")]
      (by decide) (by decide)⟩

end Script
